import Mathlib

/-!
Verification development for the Daily Gist podcast generator
(`services/podcast-generator/pipeline.py`, `services/podcast-generator/main.py`,
`scripts/generate_podcast.py`).

The Python sources are shallowly embedded as executable Lean definitions:

* strings are `List Char` (ASCII fragment: the regex classes `\s` and `\w`
  are modelled by their ASCII members, which covers every string the code
  manipulates in the properties below);
* the regex passes of `_clean_transcript` are modelled by left-to-right
  scanners with the leftmost / lazy semantics of `re.sub` and `re.findall`;
* recursive substitution loops use an explicit fuel argument
  (`input length + 1`, strictly more than the number of possible matches)
  so that every definition is structurally recursive and computable;
* the retry loops of `_tts_generate` (pipeline.py) and `_process_job`
  (main.py) are modelled as bounded recursions over an oracle
  `Nat → outcome` giving the result of each attempted external call;
* audio is modelled as PCM sample lists at the fixed 24 kHz mono rate used
  by `_save_wav` (so 1 ms = 24 samples); `pydub` addition is list append.
-/

/-! ## Basic character and string helpers -/

/-- Apostrophe character (U+0027), used in the greeting pattern `what'?s up`. -/
def aposChar : Char := Char.ofNat 39

/-- Backtick character (U+0060). -/
def btickChar : Char := Char.ofNat 96

/-- The fence delimiter of `_clean_transcript`: three backticks. -/
def fenceTok : List Char := [btickChar, btickChar, btickChar]

/-- ASCII lower-casing, modelling `str.lower` / `re.IGNORECASE` on ASCII. -/
def toLowerChar (c : Char) : Char :=
  if 'A' ≤ c ∧ c ≤ 'Z' then Char.ofNat (c.toNat + 32) else c

/-- Lower-case a string. -/
def lowerL (cs : List Char) : List Char := cs.map toLowerChar

/-- ASCII whitespace, modelling Python's `\s` and `str.strip` on ASCII. -/
def isSpaceChar (c : Char) : Bool :=
  c == ' ' || c == '\t' || c == '\n' || c == '\r' ||
    c == Char.ofNat 11 || c == Char.ofNat 12

/-- Python `str.lstrip()`. -/
def lstripL (cs : List Char) : List Char := cs.dropWhile isSpaceChar

/-- Python `str.rstrip()`. -/
def rstripL (cs : List Char) : List Char := (cs.reverse.dropWhile isSpaceChar).reverse

/-- Python `str.strip()`. -/
def stripL (cs : List Char) : List Char := rstripL (lstripL cs)

/-- Case-sensitive literal prefix test. -/
def csPrefix (pat cs : List Char) : Bool := pat.isPrefixOf cs

/-- Case-insensitive literal prefix test; `pat` is given in lower case. -/
def ciPrefix (pat cs : List Char) : Bool := pat.isPrefixOf (lowerL cs)

/-- Substring test (`needle in haystack` in Python). -/
def hasSub (needle : List Char) : List Char → Bool
  | [] => needle.isEmpty
  | c :: t => needle.isPrefixOf (c :: t) || hasSub needle t

/-- Prepend a character to the first component of an optional pair
(used while a scanner steps over a non-matching character). -/
def consPre (c : Char) : Option (List Char × List Char) → Option (List Char × List Char)
  | none => none
  | some (pre, post) => some (c :: pre, post)

/-- Prepend a character to the first component of an optional triple. -/
def consPre3 (c : Char) :
    Option (List Char × List Char × List Char) → Option (List Char × List Char × List Char)
  | none => none
  | some (pre, mid, post) => some (c :: pre, mid, post)

/-- Scan left to right for the leftmost occurrence of one of the literal
tags, under the prefix test `check`.  Returns the text before the match,
the tag that matched, and the text after the matched characters.  This is
the leftmost-match search of a Python regex whose pattern starts with one
of the literal alternatives in `tags`. -/
def scanTag (check : List Char → List Char → Bool) (tags : List (List Char)) :
    List Char → Option (List Char × List Char × List Char)
  | [] => none
  | c :: t =>
    match tags.find? (fun tag => check tag (c :: t)) with
    | some tag => some ([], tag, (c :: t).drop tag.length)
    | none => consPre3 c (scanTag check tags t)

/-! ## `_clean_transcript` (pipeline.py lines 412-452) -/

/-- Leftmost lazy match of `open.*?close` (with `re.DOTALL`): the first
occurrence of the opening tag followed by the first occurrence of the
closing tag after it.  Returns the text before the match and the text
after it.  If the first opening tag has no closing tag after it, no later
opening tag can have one either, so the whole pattern has no match. -/
def findBlock (check : List Char → List Char → Bool) (openT closeT : List Char)
    (cs : List Char) : Option (List Char × List Char) :=
  match scanTag check [openT] cs with
  | none => none
  | some (pre, _, rest) =>
    match scanTag check [closeT] rest with
    | none => none
    | some (_, _, post) => some (pre, post)

/-- Fueled `re.sub(open.*?close, "", text)`: remove each non-overlapping
leftmost match and continue after it. -/
def removeBlocksF (check : List Char → List Char → Bool) (openT closeT : List Char) :
    Nat → List Char → List Char
  | 0, cs => cs
  | fuel + 1, cs =>
    match findBlock check openT closeT cs with
    | none => cs
    | some (pre, post) => pre ++ removeBlocksF check openT closeT fuel post

/-- `re.sub(open.*?close, "", text)` with enough fuel for every match. -/
def removeBlocks (check : List Char → List Char → Bool) (openT closeT cs : List Char) :
    List Char :=
  removeBlocksF check openT closeT (cs.length + 1) cs

/-- Find the first `]` on the current line (a `.` in a pattern without
`re.DOTALL` does not match a newline); returns the text after it. -/
def bracketClose : List Char → Option (List Char)
  | [] => none
  | c :: t => if c = ']' then some t else if c = '\n' then none else bracketClose t

/-- Leftmost match of `\[.*?\]`: the first `[` that has a `]` later on the
same line.  Returns the text before the match and the text after it. -/
def findBracket : List Char → Option (List Char × List Char)
  | [] => none
  | c :: t =>
    if c = '[' then
      match bracketClose t with
      | some post => some ([], post)
      | none => consPre c (findBracket t)
    else consPre c (findBracket t)

/-- Fueled `re.sub(r"\[.*?\]", "", text)`. -/
def removeBracketsF : Nat → List Char → List Char
  | 0, cs => cs
  | fuel + 1, cs =>
    match findBracket cs with
    | none => cs
    | some (pre, post) => pre ++ removeBracketsF fuel post

/-- `re.sub(r"\[.*?\]", "", text)` with enough fuel for every match. -/
def removeBrackets (cs : List Char) : List Char := removeBracketsF (cs.length + 1) cs

/-- The opening speaker tags of the combined pattern `<Person[12]>`. -/
def personOpens : List (List Char) := ["<Person1>".toList, "<Person2>".toList]

/-- The closing speaker tags of the combined pattern `</Person[12]>`. -/
def personCloses : List (List Char) := ["</Person1>".toList, "</Person2>".toList]

/-- Leftmost match of `(<Person[12]>.*?</Person[12]>)` with `re.DOTALL`
(no backreference: any closing tag may end any opening tag).  Returns the
matched segment, tags included, and the text after it. -/
def findPersonSeg (cs : List Char) : Option (List Char × List Char) :=
  match scanTag csPrefix personOpens cs with
  | none => none
  | some (_, otag, rest) =>
    match scanTag csPrefix personCloses rest with
    | none => none
    | some (mid, ctag, post) => some (otag ++ mid ++ ctag, post)

/-- Fueled `re.findall` for the combined person-tag pattern. -/
def personTagsF : Nat → List Char → List (List Char)
  | 0, _ => []
  | fuel + 1, cs =>
    match findPersonSeg cs with
    | none => []
    | some (seg, post) => seg :: personTagsF fuel post

/-- All person-tagged segments of the text, in order. -/
def personTags (cs : List Char) : List (List Char) := personTagsF (cs.length + 1) cs

/-- Newline as a one-character string (the separator of `"\n".join`). -/
def nlTok : List Char := ['\n']

/-- The keep-only-tagged-turns pass: if any person-tagged segment exists,
the text becomes the newline-join of all such segments. -/
def keepPersonTags (cs : List Char) : List Char :=
  match personTags cs with
  | [] => cs
  | tags => List.intercalate nlTok tags

/-- Find the first `**` close on the current line (pattern without
`re.DOTALL`); returns the text between and the text after it. -/
def boldClose : List Char → Option (List Char × List Char)
  | c1 :: c2 :: t =>
    if c1 = '*' ∧ c2 = '*' then some ([], t)
    else if c1 = '\n' then none
    else consPre c1 (boldClose (c2 :: t))
  | _ => none

/-- Leftmost match of `\*\*(.*?)\*\*`: returns the text before the match,
the captured group, and the text after the match.  On failure at an
opening `**` the scan advances a single character, as a regex engine does. -/
def findBold : List Char → Option (List Char × List Char × List Char)
  | c1 :: c2 :: t =>
    if c1 = '*' ∧ c2 = '*' then
      match boldClose t with
      | some (mid, post) => some ([], mid, post)
      | none => consPre3 c1 (findBold (c2 :: t))
    else consPre3 c1 (findBold (c2 :: t))
  | _ => none

/-- Fueled `re.sub(r"\*\*(.*?)\*\*", r"\1", text)`. -/
def subBoldF : Nat → List Char → List Char
  | 0, cs => cs
  | fuel + 1, cs =>
    match findBold cs with
    | none => cs
    | some (pre, mid, post) => pre ++ mid ++ subBoldF fuel post

/-- Strip `**bold**` markers, keeping their content. -/
def subBold (cs : List Char) : List Char := subBoldF (cs.length + 1) cs

/-- The keyword alternatives of the instruction-line pattern
`(Note|Instructions?|Reminder|TODO|NB|IMPORTANT)`, lower-cased; the
plural alternative comes first so the greedy optional `s?` is honoured. -/
def noteKeywords : List (List Char) :=
  ["instructions".toList, "instruction".toList, "note".toList,
   "reminder".toList, "todo".toList, "nb".toList, "important".toList]

/-- Try to match `KEYWORD:` case-insensitively at the head of the text;
returns the text after the colon. -/
def kwColon (cs : List Char) : Option (List Char) :=
  match noteKeywords.find? (fun kw => ciPrefix (kw ++ [':']) cs) with
  | none => none
  | some kw => some (cs.drop (kw.length + 1))

/-- Try the instruction-line pattern `\s*(Note|...):.*$` at a line-start
position: `\s*` greedily skips all whitespace (newlines included — the
keyword may sit on a later line), the keyword must follow (its first
letter is never whitespace, so backtracking inside `\s*` cannot help),
and `.*$` consumes the rest of that line.  Returns the text after the
match (beginning with the line's newline, if any). -/
def noteHere (cs : List Char) : Option (List Char) :=
  match kwColon (cs.dropWhile isSpaceChar) with
  | none => none
  | some afterColon => some (afterColon.dropWhile (fun c => c != '\n'))

/-- Leftmost match of `(?m)^\s*(Note|...):.*$` starting from a position
whose line-start status is `atLS`.  Returns the text before and after the
match. -/
def findNote : Bool → List Char → Option (List Char × List Char)
  | _, [] => none
  | atLS, c :: t =>
    if atLS then
      match noteHere (c :: t) with
      | some post => some ([], post)
      | none => consPre c (findNote (c == '\n') t)
    else consPre c (findNote (c == '\n') t)

/-- Fueled multiline `re.sub` of the instruction-line pattern: a match
ends just before its line's newline, so the continuation position is
never itself a line start. -/
def subNotesF : Nat → Bool → List Char → List Char
  | 0, _, cs => cs
  | fuel + 1, atLS, cs =>
    match findNote atLS cs with
    | none => cs
    | some (pre, post) => pre ++ subNotesF fuel false post

/-- Remove instruction-like lines (`Note:`, `TODO:`, ...). -/
def subNotes (cs : List Char) : List Char := subNotesF (cs.length + 1) true cs

/-- The greeting prefixes of `_GREETING_RE`
(`^(hey |hi |hello |good morning|welcome |what'?s up|greetings)`,
case-insensitive), lower-cased, with both expansions of `'?`. -/
def greetingPrefixes : List (List Char) :=
  ["hey ".toList, "hi ".toList, "hello ".toList, "good morning".toList,
   "welcome ".toList, "whats up".toList,
   "what".toList ++ [aposChar] ++ "s up".toList, "greetings".toList]

/-- `_GREETING_RE.match(text)` as a Boolean: some greeting prefix matches
at the start of the text, ignoring case. -/
def greetB (cs : List Char) : Bool :=
  greetingPrefixes.any (fun p => p.isPrefixOf (lowerL cs))

/-- Opening tag of the primary speaker. -/
def p1Open : List Char := "<Person1>".toList

/-- Closing tag of the primary speaker. -/
def p1Close : List Char := "</Person1>".toList

/-- Leftmost match of `<Person1>(.*?)</Person1>` with `re.DOTALL`:
returns the text before the match, the captured group, and the text after
the match. -/
def p1Split (cs : List Char) : Option (List Char × List Char × List Char) :=
  match scanTag csPrefix [p1Open] cs with
  | none => none
  | some (pre, _, rest) =>
    match scanTag csPrefix [p1Close] rest with
    | none => none
    | some (inner, _, post) => some (pre, inner, post)

/-- Fueled list of all Person1 turn texts (the captured groups of
`re.finditer` on the Person1 pattern), in order. -/
def p1TextsF : Nat → List Char → List (List Char)
  | 0, _ => []
  | fuel + 1, cs =>
    match p1Split cs with
    | none => []
    | some (_, inner, post) => inner :: p1TextsF fuel post

/-- All Person1 turn texts of the transcript, in order. -/
def p1TurnTexts (cs : List Char) : List (List Char) := p1TextsF (cs.length + 1) cs

/-- The firing condition of the duplicate-opener pass: at least two
Person1 turns exist and the first two, stripped, both match the greeting
pattern. -/
def dedupCond (cs : List Char) : Bool :=
  match p1Split cs with
  | none => false
  | some (_, i1, post1) =>
    match p1Split post1 with
    | none => false
    | some (_, i2, _) => greetB (stripL i1) && greetB (stripL i2)

/-- The duplicate-opener pass: if the first two Person1 turns both greet,
remove the whole span of the first match (`text[:m.start()] + text[m.end():]`);
otherwise leave the text unchanged. -/
def dedupeGreet (cs : List Char) : List Char :=
  match p1Split cs with
  | none => cs
  | some (pre, i1, post1) =>
    match p1Split post1 with
    | none => cs
    | some (_, i2, _) =>
      if greetB (stripL i1) && greetB (stripL i2) then pre ++ post1 else cs

/-- Emit a pending run of newlines: runs of three or more collapse to
exactly two (`re.sub(r"\n{3,}", "\n\n", text)`). -/
def emitNL (p : Nat) : List Char := List.replicate (if 3 ≤ p then 2 else p) '\n'

/-- Collapse newline runs, carrying the length of the pending run. -/
def collapseGo : Nat → List Char → List Char
  | p, [] => emitNL p
  | p, c :: t => if c = '\n' then collapseGo (p + 1) t else emitNL p ++ c :: collapseGo 0 t

/-- `re.sub(r"\n{3,}", "\n\n", text)`. -/
def collapseNLs (cs : List Char) : List Char := collapseGo 0 cs

/-- `_clean_transcript` (pipeline.py lines 412-452): the full multi-pass
transcript-cleaning transform, passes applied in source order. -/
def cleanTranscript (raw : List Char) : List Char :=
  stripL (collapseNLs (dedupeGreet (subNotes (subBold (keepPersonTags
    (removeBrackets (removeBlocks csPrefix fenceTok fenceTok
      (removeBlocks ciPrefix "<thinking>".toList "</thinking>".toList
        (removeBlocks ciPrefix "<scratchpad>".toList "</scratchpad>".toList raw)))))))))

/-- Triple newline, the trigger of the blank-line-collapsing pass. -/
def tripleNL : List Char := ['\n', '\n', '\n']

/-- A text is artifact-free when no pass of `_clean_transcript` has
anything to do on it: no scratchpad, thinking or fenced block, no
bracketed span, the text already equals the join of its person-tagged
segments (or has none), no bold span, no instruction line, the
duplicate-opener condition does not fire, no triple newline, and no
surrounding whitespace. -/
def noArtifactsB (y : List Char) : Bool :=
  (findBlock ciPrefix "<scratchpad>".toList "</scratchpad>".toList y).isNone &&
  (findBlock ciPrefix "<thinking>".toList "</thinking>".toList y).isNone &&
  (findBlock csPrefix fenceTok fenceTok y).isNone &&
  (findBracket y).isNone &&
  (match personTags y with
   | [] => true
   | tags => List.intercalate nlTok tags == y) &&
  (findBold y).isNone &&
  (findNote true y).isNone &&
  (!dedupCond y) &&
  (!hasSub tripleNL y) &&
  (stripL y == y)

/-! ## `_parse_transcript` (pipeline.py lines 459-477) -/

/-- Speaker roles: `Person1` maps to `Host`, `Person2` to `Guest`. -/
inductive Speaker
  | host
  | guest
deriving DecidableEq, Repr

/-- A speaker turn, the `{"speaker": ..., "text": ...}` dict. -/
structure Turn where
  speaker : Speaker
  text : List Char
deriving DecidableEq, Repr

/-- ASCII word character, modelling `\w` of the `\bGist\b` pattern. -/
def isWordChar (c : Char) : Bool :=
  ('a' ≤ c && c ≤ 'z') || ('A' ≤ c && c ≤ 'Z') || ('0' ≤ c && c ≤ '9') || c == '_'

/-- The literal `Gist` (case-sensitive). -/
def gistWord : List Char := "Gist".toList

/-- The phonetic replacement `Jist`. -/
def jistWord : List Char := "Jist".toList

/-- Word-boundary test after a match: end of string or a non-word character. -/
def boundaryAfter : List Char → Bool
  | [] => true
  | d :: _ => !isWordChar d

/-- Fueled `re.sub(r"\bGist\b", "Jist", text)`, carrying whether the
previous character was a word character (for the left `\b`). -/
def gistSubF : Nat → Bool → List Char → List Char
  | 0, _, cs => cs
  | fuel + 1, prevW, cs =>
    match cs with
    | [] => []
    | c :: t =>
      if !prevW && csPrefix gistWord (c :: t) && boundaryAfter ((c :: t).drop 4) then
        jistWord ++ gistSubF fuel true ((c :: t).drop 4)
      else c :: gistSubF fuel (isWordChar c) t

/-- The phonetic-spelling substitution applied to each turn's text. -/
def gistSub (cs : List Char) : List Char := gistSubF (cs.length + 1) false cs

/-- Opening tag of the secondary speaker. -/
def p2Open : List Char := "<Person2>".toList

/-- Closing tag of the secondary speaker. -/
def p2Close : List Char := "</Person2>".toList

/-- Leftmost match of `<(Person[12])>(.*?)</\1>` with `re.DOTALL`: the
backreference makes the closing tag match the opening one.  When an
opening tag has no matching close, the scan advances one character, as a
regex engine advances its start position. -/
def parseFind : List Char → Option (Bool × List Char × List Char)
  | [] => none
  | c :: t =>
    if csPrefix p1Open (c :: t) then
      match scanTag csPrefix [p1Close] ((c :: t).drop p1Open.length) with
      | some (inner, _, post) => some (true, inner, post)
      | none => parseFind t
    else if csPrefix p2Open (c :: t) then
      match scanTag csPrefix [p2Close] ((c :: t).drop p2Open.length) with
      | some (inner, _, post) => some (false, inner, post)
      | none => parseFind t
    else parseFind t

/-- Fueled turn extraction: each matched turn text is stripped, the
`Gist` substitution applied, and empty texts are skipped. -/
def parseTurnsF : Nat → List Char → List Turn
  | 0, _ => []
  | fuel + 1, cs =>
    match parseFind cs with
    | none => []
    | some (isP1, inner, post) =>
      let ct := gistSub (stripL inner)
      if ct.isEmpty then parseTurnsF fuel post
      else ⟨if isP1 then Speaker.host else Speaker.guest, ct⟩ :: parseTurnsF fuel post

/-- `_parse_transcript`: the ordered speaker turns of a transcript. -/
def parseTranscript (cs : List Char) : List Turn := parseTurnsF (cs.length + 1) cs

/-- `_stitch_transcript`: `first_half.rstrip() + "\n\n" + second_half.lstrip()`. -/
def stitchHalves (firstHalf secondHalf : List Char) : List Char :=
  rstripL firstHalf ++ "\n\n".toList ++ lstripL secondHalf

/-! ## Failure classification (`main.py` lines 44-63) -/

/-- The Python exception classes relevant to `_is_retryable` and to the
errors the pipeline raises. -/
inductive PyExc
  | rateLimitError
  | apiConnectionError
  | futuresTimeoutError
  | connectionError
  | timeoutError
  | apiStatusError (statusCode : Nat)
  | valueError
  | runtimeError
  | typeError
  | otherError
deriving DecidableEq, Repr

/-- `_is_retryable`: the `_RETRYABLE_EXCEPTIONS` isinstance check plus the
`APIStatusError` with status 529 (overloaded) case. -/
def isRetryable : PyExc → Bool
  | .rateLimitError => true
  | .apiConnectionError => true
  | .futuresTimeoutError => true
  | .connectionError => true
  | .timeoutError => true
  | .apiStatusError code => code == 529
  | _ => false

/-! ## Pipeline-level retry (`_process_job`, main.py lines 205-225) -/

/-- `_PIPELINE_MAX_RETRIES` (main.py line 44). -/
def PIPELINE_MAX_RETRIES : Nat := 2

/-- `_PIPELINE_RETRY_DELAY_S` (main.py line 45). -/
def PIPELINE_RETRY_DELAY_S : Nat := 60

/-- The `for attempt in range(_PIPELINE_MAX_RETRIES)` loop of
`_process_job`: `o attempt` is the outcome of the attempt's
`generate_podcast` call.  Returns the settled outcome, the list of sleeps
performed between attempts, and the number of attempts made.  The
argument `left` is the number of loop iterations still available
(`left = 1` means this is the last attempt, where any failure re-raises);
`left = 0` is unreachable from `pipelineRetry`. -/
def retryAux {R : Type} (o : Nat → Except PyExc R) :
    Nat → Nat → Except PyExc R × List Nat × Nat
  | _, 0 => (Except.error PyExc.otherError, [], 0)
  | attempt, 1 => (o attempt, [], 1)
  | attempt, left + 2 =>
    match o attempt with
    | .ok r => (.ok r, [], 1)
    | .error e =>
      if isRetryable e then
        let (res, ds, n) := retryAux o (attempt + 1) (left + 1)
        (res, PIPELINE_RETRY_DELAY_S :: ds, n + 1)
      else (.error e, [], 1)

/-- The whole-pipeline bounded retry wrapped around `generate_podcast`. -/
def pipelineRetry {R : Type} (o : Nat → Except PyExc R) :
    Except PyExc R × List Nat × Nat :=
  retryAux o 0 PIPELINE_MAX_RETRIES

/-! ## Synthesis-call retry (`_tts_generate`, pipeline.py lines 532-578) -/

/-- Outcome of one `client.models.generate_content` attempt: audio bytes,
a hard-timeout expiry of the `future.result(timeout=...)` wait, or an
exception whose `str(e)` is the given message. -/
inductive TtsOutcome (β : Type)
  | success (b : β)
  | timeout
  | exc (msg : List Char)

/-- What `_tts_generate` surfaces to its caller on failure: the
`TimeoutError` raised after the attempt bound, or the re-raised exception. -/
inductive TtsFailure
  | timedOutAfterRetries
  | raised (msg : List Char)
deriving DecidableEq, Repr

/-- `_TTS_MAX_RETRIES` (pipeline.py line 503). -/
def TTS_MAX_RETRIES : Nat := 3

/-- `_TTS_RETRY_DELAYS` (pipeline.py line 504). -/
def TTS_RETRY_DELAYS : List Nat := [5, 15, 30]

/-- The substring classification of a synthesis exception
(`"500" in err_str or "internal" in ... or "timed out" in err_str`,
on the lower-cased message). -/
def ttsRetryableStr (m : List Char) : Bool :=
  hasSub "500".toList (lowerL m) || hasSub "internal".toList (lowerL m) ||
  hasSub "503".toList (lowerL m) || hasSub "disconnected".toList (lowerL m) ||
  hasSub "timeout".toList (lowerL m) || hasSub "timed out".toList (lowerL m)

/-- A call outcome that the loop classifies as retryable: a hard timeout
(always retryable) or an exception with a retryable message. -/
def retryableOutcome {β : Type} : TtsOutcome β → Bool
  | .success _ => false
  | .timeout => true
  | .exc m => ttsRetryableStr m

/-- The `for attempt in range(_TTS_MAX_RETRIES)` loop of `_tts_generate`:
returns the settled outcome and the delays slept between attempts.
`left = 1` is the final attempt, where a timeout raises `TimeoutError`
and any exception re-raises; `left = 0` is unreachable from
`ttsGenerate`. -/
def ttsAux {β : Type} (o : Nat → TtsOutcome β) :
    Nat → Nat → Except TtsFailure β × List Nat
  | _, 0 => (Except.error TtsFailure.timedOutAfterRetries, [])
  | attempt, 1 =>
    match o attempt with
    | .success b => (.ok b, [])
    | .timeout => (.error .timedOutAfterRetries, [])
    | .exc m => (.error (.raised m), [])
  | attempt, left + 2 =>
    match o attempt with
    | .success b => (.ok b, [])
    | .timeout =>
      let (r, ds) := ttsAux o (attempt + 1) (left + 1)
      (r, TTS_RETRY_DELAYS.getD attempt 0 :: ds)
    | .exc m =>
      if ttsRetryableStr m then
        let (r, ds) := ttsAux o (attempt + 1) (left + 1)
        (r, TTS_RETRY_DELAYS.getD attempt 0 :: ds)
      else (.error (.raised m), [])

/-- `_tts_generate` as a function of the per-attempt call outcomes. -/
def ttsGenerate {β : Type} (o : Nat → TtsOutcome β) : Except TtsFailure β × List Nat :=
  ttsAux o 0 TTS_MAX_RETRIES

/-! ## `generate_podcast` stage sequence (pipeline.py lines 48-122)

The text-side stages are modelled here as needed for the input-error and
progress-callback claims: the three Claude calls are an oracle providing
the generated halves, and the run settles either in an input error or in
the parsed turn list that is handed to audio synthesis (audio synthesis
itself is modelled separately by `synthesisChunks` and `stitchChunks`). -/

/-- The errors `generate_podcast` raises for bad input shape:
`ValueError("Empty newsletter text")` and the no-dialogue `RuntimeError`. -/
inductive PipelineError
  | emptyInput
  | noDialogue
deriving DecidableEq, Repr

/-- The Python exception class of each input-shape error. -/
def pyExcOf : PipelineError → PyExc
  | .emptyInput => .valueError
  | .noDialogue => .runtimeError

/-- The generation oracle: the dialogue text returned by the two
section-generation Claude calls. -/
structure GenOracle where
  firstHalf : List Char
  secondHalf : List Char

/-- Whether the `on_progress` callback raised at this stage (the
`_report` wrapper catches it and only logs). -/
def cbFails (cb : String → Except Unit Unit) (stage : String) : Bool :=
  match cb stage with
  | .ok _ => false
  | .error _ => true

/-- The stages whose callback raised (they are logged, nothing more). -/
def failedStages (l : List (String × Bool)) : List String :=
  (l.filter (fun p => p.2)).map (fun p => p.1)

deriving instance DecidableEq for Except

/-- Result of one `generate_podcast` run: the settled result, the
progress stages reported, the external calls made, and the stages whose
progress callback raised. -/
structure PipeRun where
  result : Except PipelineError (List Turn)
  stages : List String
  extCalls : List String
  cbFailures : List String
deriving DecidableEq, Repr

/-- The `generate_podcast` stage sequence: blank-input check before
anything else, then outline / first-half / second-half generation with a
progress report before each call, transcript stitching, cleaning and
parsing, the no-dialogue check, and the audio stage. -/
def runPipeline (text : List Char) (oracle : GenOracle)
    (cb : String → Except Unit Unit) : PipeRun :=
  if stripL text = [] then ⟨Except.error PipelineError.emptyInput, [], [], []⟩
  else
    let f1 := cbFails cb "outline"
    let f2 := cbFails cb "first_half"
    let f3 := cbFails cb "second_half"
    let turns := parseTranscript (cleanTranscript (stitchHalves oracle.firstHalf oracle.secondHalf))
    if turns = [] then
      ⟨Except.error PipelineError.noDialogue,
        ["outline", "first_half", "second_half"],
        ["claude:outline", "claude:first_half", "claude:second_half"],
        failedStages [("outline", f1), ("first_half", f2), ("second_half", f3)]⟩
    else
      let f4 := cbFails cb "audio"
      ⟨Except.ok turns,
        ["outline", "first_half", "second_half", "audio"],
        ["claude:outline", "claude:first_half", "claude:second_half", "tts:synthesize"],
        failedStages [("outline", f1), ("first_half", f2), ("second_half", f3), ("audio", f4)]⟩

/-! ## Chunk planning (`_synthesize_audio` / `_synthesize_chunked`,
pipeline.py lines 581-634) -/

/-- `CHUNK_THRESHOLD` (pipeline.py line 586): chunk only above this many
turns. -/
def CHUNK_THRESHOLD : Nat := 10

/-- `target_chunk_size` (pipeline.py line 622). -/
def targetChunkSize : Nat := 15

/-- `max(1, round(len(turns) / target_chunk_size))`.  Python's `round`
rounds half to even, but `n / 15` is never a half-integer (that would
need `2 * n = 15 * odd`, impossible by parity) and for the turn counts at
hand the float quotient is never rounded onto a half-integer, so
`round(n / 15) = ⌊n / 15 + 1 / 2⌋ = (2 * n + 15) / 30` in integers. -/
def numChunks (n : Nat) : Nat := max 1 ((2 * n + targetChunkSize) / (2 * targetChunkSize))

/-- The planned chunk sizes: `base = n div k`, `remainder = n mod k`; the
first `remainder` chunks get `base + 1` turns, the rest `base`. -/
def chunkSizes (n : Nat) : List Nat :=
  (List.range (numChunks n)).map
    (fun i => n / numChunks n + if i < n % numChunks n then 1 else 0)

/-- Successive slices `turns[offset : offset + size]` for the given
sizes, the offset advancing by each size in turn. -/
def splitBySizes {α : Type} : List Nat → List α → List (List α)
  | [], _ => []
  | s :: ss, xs => xs.take s :: splitBySizes ss (xs.drop s)

/-- The balanced chunks `_synthesize_chunked` builds. -/
def planChunks {α : Type} (turns : List α) : List (List α) :=
  splitBySizes (chunkSizes turns.length) turns

/-- The chunk decision of `_synthesize_audio`: a single chunk holding the
whole sequence when `len(turns) ≤ CHUNK_THRESHOLD`, the balanced split
otherwise. -/
def synthesisChunks {α : Type} (turns : List α) : List (List α) :=
  if CHUNK_THRESHOLD < turns.length then planChunks turns else [turns]

/-! ## Audio stitching (`_synthesize_chunked`, pipeline.py lines 663-673) -/

/-- `_CHUNK_GAP_MS` (pipeline.py line 618). -/
def CHUNK_GAP_MS : Nat := 300

/-- Samples per millisecond at the fixed 24 kHz mono rate of `_save_wav`
(`pydub` syncs the silence's frame rate to the segments', preserving its
300 ms duration). -/
def samplesPerMs : Nat := 24

/-- The 300 ms silence gap as PCM samples. -/
def silenceSeg : List Int := List.replicate (CHUNK_GAP_MS * samplesPerMs) 0

/-- The stitching loop: `combined = segments[0]`, then
`combined = combined + silence + seg` for each following segment. -/
def stitchChunks : List (List Int) → List Int
  | [] => []
  | s :: rest => rest.foldl (fun acc seg => acc ++ silenceSeg ++ seg) s

/-! ## Worker call-site binding (`_process_job` → `generate_podcast`) -/

/-- The parameters of `generate_podcast` (pipeline.py lines 48-53). -/
def generatePodcastParams : List String :=
  ["newsletter_text", "user_email", "on_progress", "target_length_minutes"]

/-- The keyword arguments `_process_job` passes in its call to
`generate_podcast` (main.py lines 207-213); `newsletter_text` is passed
positionally. -/
def processJobCallKwargs : List String :=
  ["user_email", "on_progress", "target_length_minutes", "intro_music"]

/-- Python call binding for keyword arguments: every keyword passed must
name a parameter of the callee (none of these parameters is
positional-only and the callee has no `**kwargs`). -/
def kwargsBind (params kwargs : List String) : Bool :=
  kwargs.all (fun k => params.contains k)

/-! ## Failure write-back (`_process_job` except-branch, main.py lines 284-292) -/

/-- A write against the episodes table. -/
inductive DbWrite
  | update (status msg : String)
  | upsert (status msg : String)
deriving DecidableEq, Repr

/-- Whether a write is an upsert. -/
def isUpsert : DbWrite → Bool
  | .upsert _ _ => true
  | _ => false

/-- The sanitized message stored on a failed episode record. -/
def sanitizedFailureMessage : String := "Podcast generation failed"

/-- The episode-table writes the failure handler issues, as a function of
whether the status-update write itself throws and of the internal
exception detail: one update with the constant sanitized message, and
nothing else in either case. -/
def failureWrites (statusWriteThrows : Bool) (excDetail : String) : List DbWrite :=
  [DbWrite.update "failed" sanitizedFailureMessage]

/-- The log lines the failure handler emits: the job-failure log carrying
the internal exception detail, plus a second log when the status write
itself throws. -/
def failureLogs (statusWriteThrows : Bool) (excDetail : String) : List String :=
  ("Job failed: " ++ excDetail) ::
    (if statusWriteThrows then ["Failed to update episode status to failed"] else [])

/-! ## Concrete inputs used by witnesses and counterexamples -/

/-- A transcript whose first three Person1 turns all greet: cleaning it
once removes one greeting, cleaning the result removes another. -/
def tripleGreetingTranscript : List Char :=
  ("<Person1>Hey one</Person1>\n<Person1>Hey two</Person1>\n" ++
    "<Person1>Hey three</Person1>").toList

/-- An ordinary two-speaker transcript whose cleaned form is
artifact-free. -/
def cleanWitnessTranscript : List Char :=
  "<Person1>Big news today.</Person1>\n<Person2>Tell me more.</Person2>".toList

/-- The spec's duplicate-opener example: the first two Person1 turns are
"Hey there, welcome!" and "Hi everyone, welcome to the show!". -/
def doubleGreetingExample : List Char :=
  ("<Person1>Hey there, welcome!</Person1>\n" ++
    "<Person2>Glad to be here.</Person2>\n" ++
    "<Person1>Hi everyone, welcome to the show!</Person1>").toList

/-- A two-turn transcript for exercising the duplicate-opener pass. -/
def dedupeWitInput : List Char :=
  "<Person1>Hey a</Person1><Person1>Hi b</Person1>".toList

/-- A synthesis-call oracle: hard timeout, then a retryable 503 error,
then success. -/
def ttsWitOracle : Nat → TtsOutcome Nat := fun i =>
  if i = 0 then TtsOutcome.timeout
  else if i = 1 then TtsOutcome.exc "HTTP 503 from upstream".toList
  else TtsOutcome.success 42

/-- A pipeline oracle: one retryable rate-limit failure, then success. -/
def pipeWitOracle : Nat → Except PyExc Unit := fun i =>
  if i = 0 then Except.error PyExc.rateLimitError else Except.ok ()

/-- A whitespace-only input document. -/
def blankInput : List Char := "   ".toList

/-- A generation oracle whose halves contain no speaker tags, so parsing
yields zero turns. -/
def junkOracle : GenOracle :=
  ⟨"no tags in first half".toList, "and none in second".toList⟩

/-! ## Helper lemmas: scanner soundness and pass fixpoints -/

/-- A successful case-sensitive tag scan decomposes its input: the text
is the prefix, then the matched tag, then the remainder. -/
theorem scanTag_cs_sound (tags : List (List Char)) :
    ∀ (cs pre tag post : List Char),
      scanTag csPrefix tags cs = some (pre, tag, post) →
      cs = pre ++ tag ++ post ∧ tag ∈ tags := by
  intro cs
  induction cs with
  | nil => intro pre tag post h; simp [scanTag] at h
  | cons c t ih =>
    intro pre tag post h
    rw [scanTag] at h
    cases hf : (tags.find? fun tg => csPrefix tg (c :: t)) with
    | some tg =>
      rw [hf] at h
      obtain ⟨h1, h2, h3⟩ := by
        simpa using h
      subst h1; subst h2; subst h3
      have hp : tg <+: (c :: t) := by
        have hpre := List.find?_some hf
        simpa [csPrefix] using hpre
      obtain ⟨rest, hrest⟩ := hp
      refine ⟨?_, List.mem_of_find?_eq_some hf⟩
      rw [← hrest, List.drop_left]
      simp
    | none =>
      rw [hf] at h
      cases hrec : scanTag csPrefix tags t with
      | none => rw [hrec] at h; simp [consPre3] at h
      | some v =>
        obtain ⟨p, m, q⟩ := v
        rw [hrec] at h
        simp [consPre3] at h
        obtain ⟨h1, h2, h3⟩ := h
        obtain ⟨hdec, hmem⟩ := ih p m q hrec
        subst h1; subst h2; subst h3
        refine ⟨?_, hmem⟩
        simp [hdec]

/-- A block-removal pass with no match is the identity. -/
theorem removeBlocks_eq_self (check : List Char → List Char → Bool)
    (openT closeT cs : List Char) (h : findBlock check openT closeT cs = none) :
    removeBlocks check openT closeT cs = cs := by
  unfold removeBlocks
  simp [removeBlocksF, h]

/-- The bracket-removal pass with no match is the identity. -/
theorem removeBrackets_eq_self (cs : List Char) (h : findBracket cs = none) :
    removeBrackets cs = cs := by
  unfold removeBrackets
  simp [removeBracketsF, h]

/-- The keep-only-tagged-turns pass is the identity when the text has no
person tags or already equals the join of its person-tagged segments. -/
theorem keepPersonTags_eq_self (y : List Char)
    (h : (match personTags y with
          | [] => true
          | tags => List.intercalate nlTok tags == y) = true) :
    keepPersonTags y = y := by
  unfold keepPersonTags
  cases htags : personTags y with
  | nil => rfl
  | cons a l =>
    rw [htags] at h
    simpa using h

/-- The bold-stripping pass with no match is the identity. -/
theorem subBold_eq_self (cs : List Char) (h : findBold cs = none) : subBold cs = cs := by
  unfold subBold
  simp [subBoldF, h]

/-- The instruction-line pass with no match is the identity. -/
theorem subNotes_eq_self (cs : List Char) (h : findNote true cs = none) : subNotes cs = cs := by
  unfold subNotes
  simp [subNotesF, h]

/-- The duplicate-opener pass is the identity when its condition fails. -/
theorem dedupeGreet_eq_self (cs : List Char) (h : dedupCond cs = false) :
    dedupeGreet cs = cs := by
  unfold dedupCond at h
  unfold dedupeGreet
  cases h1 : p1Split cs with
  | none => rfl
  | some v =>
    obtain ⟨pre, i1, post1⟩ := v
    rw [h1] at h
    cases h2 : p1Split post1 with
    | none => simp [h2]
    | some w =>
      obtain ⟨mid, i2, post2⟩ := w
      have h' : (greetB (stripL i1) && greetB (stripL i2)) = false := by
        simpa [h2] using h
      simp [h2, h']

/-- Substring occurrence is preserved by consing a character in front. -/
theorem hasSub_cons_of (n : List Char) (c : Char) (t : List Char)
    (h : hasSub n t = true) : hasSub n (c :: t) = true := by
  simp [hasSub, h]

/-- Substring occurrence is preserved by prepending any text. -/
theorem hasSub_append_of (n l t : List Char) (h : hasSub n t = true) :
    hasSub n (l ++ t) = true := by
  induction l with
  | nil => simpa using h
  | cons c l ih => simpa using hasSub_cons_of n c (l ++ t) ih

/-- Three leading newlines witness a triple-newline substring. -/
theorem hasSub_tripleNL_head (l : List Char) :
    hasSub tripleNL ('\n' :: '\n' :: '\n' :: l) = true := by
  have hp : tripleNL <+: ('\n' :: '\n' :: '\n' :: l) := ⟨l, rfl⟩
  simp [hasSub, List.isPrefixOf_iff_prefix, hp, tripleNL]

/-- Shift a newline from the head of the remainder into the pending run. -/
theorem replicate_nl_shift (p : Nat) (t : List Char) :
    List.replicate p '\n' ++ '\n' :: t = List.replicate (p + 1) '\n' ++ t := by
  rw [List.replicate_succ']
  simp

/-- Newline-run collapsing is the identity on texts with no triple
newline, for any pending run of at most two newlines. -/
theorem collapseGo_eq_self :
    ∀ (cs : List Char) (p : Nat), p ≤ 2 →
      hasSub tripleNL (List.replicate p '\n' ++ cs) = false →
      collapseGo p cs = List.replicate p '\n' ++ cs := by
  intro cs
  induction cs with
  | nil =>
    intro p hp _
    simp [collapseGo, emitNL, Nat.not_le.mpr (Nat.lt_succ_of_le hp)]
  | cons c t ih =>
    intro p hp h
    by_cases hc : c = '\n'
    · subst hc
      have hp1 : p + 1 ≤ 2 := by
        rcases Nat.lt_or_ge p 2 with h2 | h2
        · omega
        · exfalso
          have hp2 : p = 2 := le_antisymm hp h2
          subst hp2
          rw [show List.replicate 2 '\n' ++ '\n' :: t = '\n' :: '\n' :: '\n' :: t from rfl] at h
          rw [hasSub_tripleNL_head t] at h
          exact Bool.true_eq_false.mp h
      rw [replicate_nl_shift] at h
      rw [collapseGo, if_pos rfl, ih (p + 1) hp1 h, replicate_nl_shift]
    · have h0 : hasSub tripleNL t = false := by
        cases hEq : hasSub tripleNL t with
        | false => rfl
        | true =>
          exfalso
          have := hasSub_append_of tripleNL (List.replicate p '\n') (c :: t)
            (hasSub_cons_of tripleNL c t hEq)
          rw [this] at h
          exact Bool.true_eq_false.mp h
      rw [collapseGo, if_neg hc, emitNL, if_neg (by omega),
        ih 0 (by omega) (by simpa using h0)]
      simp

/-- The blank-line-collapsing pass is the identity on texts with no
triple newline. -/
theorem collapseNLs_eq_self (cs : List Char) (h : hasSub tripleNL cs = false) :
    collapseNLs cs = cs := by
  unfold collapseNLs
  simpa using collapseGo_eq_self cs 0 (by omega) (by simpa using h)

/-- On an artifact-free text, every pass of `_clean_transcript` is the
identity, hence so is the whole transform. -/
theorem cleanTranscript_eq_self (y : List Char) (h : noArtifactsB y = true) :
    cleanTranscript y = y := by
  unfold noArtifactsB at h
  simp only [Bool.and_eq_true] at h
  obtain ⟨⟨⟨⟨⟨⟨⟨⟨⟨h1, h2⟩, h3⟩, h4⟩, h5⟩, h6⟩, h7⟩, h8⟩, h9⟩, h10⟩ := h
  rw [Option.isNone_iff_eq_none] at h1 h2 h3 h4 h6 h7
  rw [Bool.not_eq_true'] at h8 h9
  have h10' : stripL y = y := by simpa using h10
  unfold cleanTranscript
  rw [removeBlocks_eq_self _ _ _ _ h1, removeBlocks_eq_self _ _ _ _ h2,
    removeBlocks_eq_self _ _ _ _ h3, removeBrackets_eq_self _ h4,
    keepPersonTags_eq_self _ h5, subBold_eq_self _ h6, subNotes_eq_self _ h7,
    dedupeGreet_eq_self _ h8, collapseNLs_eq_self _ h9, h10']

/-- A successful Person1 match decomposes the transcript as
`before ++ <Person1> ++ turn text ++ </Person1> ++ after`. -/
theorem p1Split_sound (cs pre i post : List Char)
    (h : p1Split cs = some (pre, i, post)) :
    cs = pre ++ p1Open ++ i ++ p1Close ++ post := by
  unfold p1Split at h
  cases h1 : scanTag csPrefix [p1Open] cs with
  | none => rw [h1] at h; cases h
  | some v =>
    obtain ⟨pre', tag, rest⟩ := v
    rw [h1] at h
    cases h2 : scanTag csPrefix [p1Close] rest with
    | none => simp [h2] at h
    | some w =>
      obtain ⟨inner, ctag, post'⟩ := w
      simp only [h2, Option.some.injEq, Prod.mk.injEq] at h
      obtain ⟨e1, e2, e3⟩ := h
      subst e1; subst e2; subst e3
      obtain ⟨d1, m1⟩ := scanTag_cs_sound [p1Open] cs pre' tag rest h1
      obtain ⟨d2, m2⟩ := scanTag_cs_sound [p1Close] rest inner ctag post' h2
      have ht1 : tag = p1Open := by simpa using m1
      have ht2 : ctag = p1Close := by simpa using m2
      subst ht1; subst ht2
      rw [d1, d2]
      simp

/-! ## Helper lemmas: chunk planning -/

/-- Concatenating the size-guided slices reproduces the turn sequence
when the sizes sum to its length. -/
theorem splitBySizes_flatten {α : Type} :
    ∀ (ss : List Nat) (xs : List α), ss.sum = xs.length →
      (splitBySizes ss xs).flatten = xs := by
  intro ss
  induction ss with
  | nil =>
    intro xs h
    have : xs = [] := List.eq_nil_of_length_eq_zero (by simpa using h.symm)
    simp [splitBySizes, this]
  | cons s ss ih =>
    intro xs h
    have hs : s ≤ xs.length := by simp at h; omega
    have hrest : ss.sum = (xs.drop s).length := by simp at h ⊢; omega
    simp only [splitBySizes, List.flatten_cons]
    rw [ih (xs.drop s) hrest, List.take_append_drop]

/-- The slices have exactly the planned sizes when the sizes fit. -/
theorem splitBySizes_lengths {α : Type} :
    ∀ (ss : List Nat) (xs : List α), ss.sum ≤ xs.length →
      (splitBySizes ss xs).map List.length = ss := by
  intro ss
  induction ss with
  | nil => intro xs _; rfl
  | cons s ss ih =>
    intro xs h
    have hs : s ≤ xs.length := by simp at h; omega
    have hrest : ss.sum ≤ (xs.drop s).length := by simp at h ⊢; omega
    simp only [splitBySizes, List.map_cons]
    rw [ih (xs.drop s) hrest, List.length_take, Nat.min_eq_left hs]

/-- Sum of an `i < r` indicator over `range k`. -/
theorem indicator_sum (r : Nat) :
    ∀ k : Nat, ((List.range k).map (fun i => if i < r then (1 : Nat) else 0)).sum = min r k := by
  intro k
  induction k with
  | zero => simp
  | succ k ih =>
    rw [List.range_succ, List.map_append, List.sum_append, ih]
    by_cases hk : k < r
    · simp [hk]; omega
    · simp [hk]; omega

/-- Sum of a constant-plus-function map. -/
theorem sum_map_const_add (q : Nat) (f : Nat → Nat) :
    ∀ l : List Nat, (l.map (fun i => q + f i)).sum = l.length * q + (l.map f).sum := by
  intro l
  induction l with
  | nil => simp
  | cons a t ih => simp [ih]; ring

/-- At least one chunk is always planned. -/
theorem numChunks_pos (n : Nat) : 1 ≤ numChunks n := le_max_left 1 _

/-- The planned chunk sizes sum to the number of turns. -/
theorem chunkSizes_sum (n : Nat) : (chunkSizes n).sum = n := by
  unfold chunkSizes
  rw [sum_map_const_add]
  rw [indicator_sum]
  have hk : 0 < numChunks n := numChunks_pos n
  have hmod : n % numChunks n < numChunks n := Nat.mod_lt n hk
  rw [List.length_range, Nat.min_eq_left (le_of_lt hmod)]
  have := Nat.div_add_mod n (numChunks n)
  omega

/-- Every planned chunk size is the base size or one more. -/
theorem chunkSizes_mem (n a : Nat) (ha : a ∈ chunkSizes n) :
    a = n / numChunks n ∨ a = n / numChunks n + 1 := by
  unfold chunkSizes at ha
  simp only [List.mem_map, List.mem_range] at ha
  obtain ⟨i, _, hi⟩ := ha
  by_cases hir : i < n % numChunks n
  · right; rw [← hi]; simp [hir]
  · left; rw [← hi]; simp [hir]

/-- C1.  Chunk planning for audio synthesis: a turn sequence of length at
most 10 is synthesized as a single chunk holding the whole sequence;
otherwise it is split into `k = max(1, round(N/15))` chunks whose sizes
follow the base / base+1 distribution, differ pairwise by at most 1, sum
to N, and concatenate back to the original sequence in order. -/
theorem chunk_planner_spec {α : Type} (turns : List α) :
    (turns.length ≤ CHUNK_THRESHOLD → synthesisChunks turns = [turns]) ∧
    (CHUNK_THRESHOLD < turns.length →
      (synthesisChunks turns).length = numChunks turns.length ∧
      (synthesisChunks turns).map List.length = chunkSizes turns.length ∧
      ((synthesisChunks turns).map List.length).sum = turns.length ∧
      (synthesisChunks turns).flatten = turns ∧
      ∀ a ∈ (synthesisChunks turns).map List.length,
        ∀ b ∈ (synthesisChunks turns).map List.length, a ≤ b + 1) := by
  constructor
  · intro h
    unfold synthesisChunks
    rw [if_neg (by omega)]
  · intro h
    have hchunks : synthesisChunks turns = planChunks turns := by
      unfold synthesisChunks
      rw [if_pos h]
    have hsum : (chunkSizes turns.length).sum = turns.length := chunkSizes_sum _
    have hlens : (planChunks turns).map List.length = chunkSizes turns.length :=
      splitBySizes_lengths _ _ (le_of_eq hsum)
    refine ⟨?_, ?_, ?_, ?_, ?_⟩
    · have := congrArg List.length hlens
      simpa [hchunks, chunkSizes] using this
    · rw [hchunks]; exact hlens
    · rw [hchunks, hlens]; exact hsum
    · rw [hchunks]; exact splitBySizes_flatten _ _ hsum
    · intro a ha b hb
      rw [hchunks, hlens] at ha hb
      rcases chunkSizes_mem _ _ ha with h1 | h1 <;>
        rcases chunkSizes_mem _ _ hb with h2 | h2 <;> omega

/-- Witness for C1: a 5-turn sequence stays whole; a 40-turn sequence is
split into balanced chunks that concatenate back to the original. -/
theorem chunk_planner_spec_witness :
    synthesisChunks (List.range 5) = [List.range 5] ∧
    (synthesisChunks (List.range 40)).flatten = List.range 40 ∧
    (synthesisChunks (List.range 40)).map List.length = chunkSizes 40 := by
  refine ⟨(chunk_planner_spec (List.range 5)).1 (by decide), ?_, ?_⟩
  · exact ((chunk_planner_spec (List.range 40)).2 (by decide)).2.2.2.1
  · have := ((chunk_planner_spec (List.range 40)).2 (by decide)).2.1
    simpa using this

/-! ## Helper lemmas: audio stitching -/

/-- The stitching fold appends each later segment behind a silence gap. -/
theorem stitch_fold_eq (s : List Int) :
    ∀ rest : List (List Int),
      rest.foldl (fun acc seg => acc ++ silenceSeg ++ seg) s =
        s ++ (rest.map (fun seg => silenceSeg ++ seg)).flatten := by
  intro rest
  induction rest generalizing s with
  | nil => simp
  | cons a t ih =>
    rw [List.foldl_cons, ih]
    simp

/-- The fold result is exactly the flattened silence-interspersed list. -/
theorem intersperse_flatten_eq :
    ∀ (rest : List (List Int)) (s : List Int),
      (List.intersperse silenceSeg (s :: rest)).flatten =
        s ++ (rest.map (fun seg => silenceSeg ++ seg)).flatten := by
  intro rest
  induction rest with
  | nil => intro s; simp
  | cons a t ih =>
    intro s
    rw [List.intersperse_cons_cons, List.flatten_cons, List.flatten_cons, ih a]
    simp

/-- Length of the gapped tail: one gap per later segment. -/
theorem flatten_gap_length :
    ∀ rest : List (List Int),
      ((rest.map (fun seg => silenceSeg ++ seg)).flatten).length =
        rest.length * silenceSeg.length + (rest.map List.length).sum := by
  intro rest
  induction rest with
  | nil => simp
  | cons a t ih => simp [ih]; ring

/-- C8.  The audio stitcher joins the ordered chunk segments with exactly
one fixed 300 ms silence gap between consecutive segments — none before
the first or after the last — preserving order, and the combined length
is the sum of the segment lengths plus (k-1) gaps. -/
theorem audio_stitcher_spec (segs : List (List Int)) (h : segs ≠ []) :
    stitchChunks segs = (List.intersperse silenceSeg segs).flatten ∧
    (stitchChunks segs).length =
      (segs.map List.length).sum + (segs.length - 1) * (CHUNK_GAP_MS * samplesPerMs) := by
  cases segs with
  | nil => exact absurd rfl h
  | cons s rest =>
    constructor
    · rw [stitchChunks, stitch_fold_eq, intersperse_flatten_eq]
    · rw [stitchChunks, stitch_fold_eq, List.length_append, flatten_gap_length]
      have hsil : silenceSeg.length = CHUNK_GAP_MS * samplesPerMs := by
        simp [silenceSeg]
      rw [hsil]
      simp only [List.map_cons, List.sum_cons, List.length_cons, Nat.add_sub_cancel]
      ring

/-- Witness for C8: the stitcher on two concrete segments. -/
theorem audio_stitcher_spec_witness :
    stitchChunks [[1], [2, 3]] = (List.intersperse silenceSeg [[1], [2, 3]]).flatten ∧
    (stitchChunks [[1], [2, 3]]).length =
      ([[1], [2, 3]].map List.length).sum +
        ([[1], [2, 3]].length - 1) * (CHUNK_GAP_MS * samplesPerMs) :=
  audio_stitcher_spec [[1], [2, 3]] (by simp)

/-! ## C2: idempotence of the transcript-cleaning transform -/

set_option maxRecDepth 100000 in
/-- Counterexample for C2: cleaning is not idempotent.  On a transcript
whose first three Person1 turns all greet, the duplicate-opener pass
fires again on the cleaned output, so the second application removes a
further turn. -/
theorem clean_transcript_not_idempotent :
    (cleanTranscript (cleanTranscript tripleGreetingTranscript) ==
      cleanTranscript tripleGreetingTranscript) = false := by decide

/-- C2 (amended).  The transcript-cleaning transform is a no-op on its
own output whenever that output is artifact-free (`noArtifactsB`): no
removable block, bracket, bold or instruction-line span, text equal to
the join of its person-tagged turns, duplicate-opener condition not
firing, no triple newline and no surrounding whitespace.  Without the
artifact-free condition a second application can remove more (see the
counterexample). -/
theorem clean_transcript_idempotent_on_clean_output (x : List Char)
    (h : noArtifactsB (cleanTranscript x) = true) :
    cleanTranscript (cleanTranscript x) = cleanTranscript x :=
  cleanTranscript_eq_self _ h

/-- Witness for C2: a concrete transcript whose cleaned output is
artifact-free, on which cleaning twice equals cleaning once. -/
theorem clean_transcript_idempotent_witness :
    noArtifactsB (cleanTranscript cleanWitnessTranscript) = true ∧
    cleanTranscript (cleanTranscript cleanWitnessTranscript) =
      cleanTranscript cleanWitnessTranscript :=
  ⟨by decide, clean_transcript_idempotent_on_clean_output cleanWitnessTranscript (by decide)⟩

/-! ## C6: the duplicate-opener (greeting) pass -/

set_option maxRecDepth 100000 in
/-- C6.  If and only if the first two Person1 turns both match the
greeting pattern, the duplicate-opener pass removes exactly the span of
the first Person1 match — the transcript decomposes as
`pre ++ <Person1> ++ turn1 ++ </Person1> ++ rest` and the pass returns
`pre ++ rest`, keeping the second turn as the opener; in every other
case the pass leaves the transcript unchanged.  On the spec's example
the cleaned output's Person1 turns are exactly the second greeting. -/
theorem greeting_dedupe_spec :
    (∀ cs pre i1 post1 mid i2 post2 : List Char,
      p1Split cs = some (pre, i1, post1) →
      p1Split post1 = some (mid, i2, post2) →
      (cs = pre ++ p1Open ++ i1 ++ p1Close ++ post1) ∧
      ((greetB (stripL i1) && greetB (stripL i2)) = true →
        dedupeGreet cs = pre ++ post1) ∧
      ((greetB (stripL i1) && greetB (stripL i2)) = false →
        dedupeGreet cs = cs)) ∧
    (∀ cs : List Char, dedupCond cs = false → dedupeGreet cs = cs) ∧
    p1TurnTexts (cleanTranscript doubleGreetingExample) =
      ["Hi everyone, welcome to the show!".toList] := by
  refine ⟨?_, dedupeGreet_eq_self, by decide⟩
  intro cs pre i1 post1 mid i2 post2 h1 h2
  refine ⟨p1Split_sound cs pre i1 post1 h1, ?_, ?_⟩
  · intro hg
    unfold dedupeGreet
    rw [h1]
    simp [h2, hg]
  · intro hg
    unfold dedupeGreet
    rw [h1]
    simp [h2, hg]

/-- Witness for C6: on a transcript whose first two Person1 turns greet,
the pass drops exactly the first turn's span. -/
theorem greeting_dedupe_spec_witness :
    dedupeGreet dedupeWitInput = [] ++ "<Person1>Hi b</Person1>".toList :=
  (greeting_dedupe_spec.1 dedupeWitInput [] "Hey a".toList
    "<Person1>Hi b</Person1>".toList [] "Hi b".toList []
    (by decide) (by decide)).2.1 (by decide)

/-! ## Helper lemmas: retry loops -/

/-- The last allowed attempt: a success is returned, any failure
surfaces. -/
theorem retryAux_one {R : Type} (o : Nat → Except PyExc R) (attempt : Nat) :
    retryAux o attempt 1 = (o attempt, [], 1) := rfl

/-- One non-final pipeline-retry iteration analysed: success returns,
a retryable failure sleeps and hands over to the next attempt, a
non-retryable failure raises at once. -/
theorem retryAux_two {R : Type} (o : Nat → Except PyExc R) (attempt : Nat) :
    retryAux o attempt 2 =
      match o attempt with
      | .ok r => (.ok r, [], 1)
      | .error e =>
        if isRetryable e then (o (attempt + 1), [PIPELINE_RETRY_DELAY_S], 2)
        else (.error e, [], 1) := by
  show retryAux o attempt (0 + 2) = _
  cases ho : o attempt with
  | ok r => simp [retryAux, ho]
  | error e =>
    by_cases hr : isRetryable e
    · simp [retryAux, retryAux_one, ho, hr]
    · simp [retryAux, ho, hr]

/-- A retryable outcome at a non-final synthesis attempt: the loop
sleeps the attempt's configured delay and continues with the next
attempt. -/
theorem ttsAux_step {β : Type} (o : Nat → TtsOutcome β) (attempt left : Nat)
    (h : retryableOutcome (o attempt) = true) :
    ttsAux o attempt (left + 2) =
      ((ttsAux o (attempt + 1) (left + 1)).1,
        TTS_RETRY_DELAYS.getD attempt 0 :: (ttsAux o (attempt + 1) (left + 1)).2) := by
  rcases hE : ttsAux o (attempt + 1) (left + 1) with ⟨r, ds⟩
  cases ho : o attempt with
  | success b => rw [ho] at h; simp [retryableOutcome] at h
  | timeout => simp [ttsAux, ho, hE]
  | exc m =>
    rw [ho] at h
    simp only [retryableOutcome] at h
    simp [ttsAux, ho, hE, h]

/-! ## C4: synthesis-call retry policy -/

/-- C4.  A synthesis call whose first two attempts fail with
classified-retryable outcomes (a hard-timeout expiry is always
retryable) and whose third attempt succeeds returns the audio without
surfacing an error, sleeping the configured 5 s and 15 s delays between
attempts; if all three attempts fail retryably, a timeout/failure is
surfaced to the caller after the same delays. -/
theorem tts_retry_policy {β : Type} (o : Nat → TtsOutcome β) :
    (retryableOutcome (TtsOutcome.timeout : TtsOutcome β) = true) ∧
    (∀ b, retryableOutcome (o 0) = true → retryableOutcome (o 1) = true →
      o 2 = TtsOutcome.success b → ttsGenerate o = (Except.ok b, [5, 15])) ∧
    (retryableOutcome (o 0) = true → retryableOutcome (o 1) = true →
      retryableOutcome (o 2) = true →
      ∃ f, ttsGenerate o = (Except.error f, [5, 15])) := by
  refine ⟨rfl, ?_, ?_⟩
  · intro b h0 h1 h2
    have e1 := ttsAux_step o 0 1 h0
    have e2 := ttsAux_step o 1 0 h1
    norm_num at e1 e2
    have e3 : ttsAux o 2 1 = (Except.ok b, []) := by simp [ttsAux, h2]
    show ttsAux o 0 3 = _
    rw [e1, e2, e3]
    simp [TTS_RETRY_DELAYS]
  · intro h0 h1 h2
    have e1 := ttsAux_step o 0 1 h0
    have e2 := ttsAux_step o 1 0 h1
    norm_num at e1 e2
    cases ho2 : o 2 with
    | success b => rw [ho2] at h2; simp [retryableOutcome] at h2
    | timeout =>
      refine ⟨TtsFailure.timedOutAfterRetries, ?_⟩
      have e3 : ttsAux o 2 1 = (Except.error TtsFailure.timedOutAfterRetries, []) := by
        simp [ttsAux, ho2]
      show ttsAux o 0 3 = _
      rw [e1, e2, e3]
      simp [TTS_RETRY_DELAYS]
    | exc m =>
      refine ⟨TtsFailure.raised m, ?_⟩
      have e3 : ttsAux o 2 1 = (Except.error (TtsFailure.raised m), []) := by
        simp [ttsAux, ho2]
      show ttsAux o 0 3 = _
      rw [e1, e2, e3]
      simp [TTS_RETRY_DELAYS]

/-- Witness for C4: timeout, then a retryable 503 error, then success —
the call returns the audio after 5 s and 15 s waits. -/
theorem tts_retry_policy_witness :
    ttsGenerate ttsWitOracle = (Except.ok 42, [5, 15]) :=
  (tts_retry_policy ttsWitOracle).2.1 42 (by decide) (by decide) rfl

/-! ## C5: pipeline-level retry policy -/

/-- C5.  The whole-pipeline retry runs at most 2 attempts: a first
attempt that succeeds returns at once with no delay; a retryable first
failure sleeps the fixed 60 s delay and re-runs the pipeline once, whose
outcome settles the job; a non-retryable first failure propagates
immediately with no delay and no further attempt. -/
theorem pipeline_retry_policy {R : Type} (o : Nat → Except PyExc R) :
    ((pipelineRetry o).2.2 ≤ PIPELINE_MAX_RETRIES) ∧
    (∀ r, o 0 = Except.ok r → pipelineRetry o = (Except.ok r, [], 1)) ∧
    (∀ e, o 0 = Except.error e → isRetryable e = true →
      pipelineRetry o = (o 1, [PIPELINE_RETRY_DELAY_S], 2)) ∧
    (∀ e, o 0 = Except.error e → isRetryable e = false →
      pipelineRetry o = (Except.error e, [], 1)) := by
  refine ⟨?_, ?_, ?_, ?_⟩
  · unfold pipelineRetry PIPELINE_MAX_RETRIES
    rw [retryAux_two]
    cases ho : o 0 with
    | ok r => simp
    | error e => by_cases hr : isRetryable e <;> simp [hr]
  · intro r h
    unfold pipelineRetry PIPELINE_MAX_RETRIES
    rw [retryAux_two, h]
  · intro e h hr
    unfold pipelineRetry PIPELINE_MAX_RETRIES
    rw [retryAux_two, h]
    simp [hr]
  · intro e h hr
    unfold pipelineRetry PIPELINE_MAX_RETRIES
    rw [retryAux_two, h]
    simp [hr]

/-- Witness for C5: a rate-limit failure then success — the job settles
successfully after one 60 s delay and exactly 2 attempts. -/
theorem pipeline_retry_policy_witness :
    pipelineRetry pipeWitOracle = (Except.ok (), [60], 2) := by
  have h := (pipeline_retry_policy pipeWitOracle).2.2.1 PyExc.rateLimitError rfl rfl
  simpa [pipeWitOracle, PIPELINE_RETRY_DELAY_S] using h

/-! ## C3: worker call-site binding -/

/-- C3 (code bug).  The call `_process_job` makes does not bind:
it passes the keyword argument `intro_music`, which is not a parameter
of `generate_podcast`, so the invocation raises `TypeError` before the
pipeline body is entered. -/
theorem process_job_call_does_not_bind :
    kwargsBind generatePodcastParams processJobCallKwargs = false ∧
    processJobCallKwargs.contains "intro_music" = true ∧
    generatePodcastParams.contains "intro_music" = false := by decide

/-! ## C9: failure write-back -/

/-- Counterexample for C9: when the failed-status update itself throws,
no fallback upsert-style write is issued — the failure handler's write
trace contains no upsert. -/
theorem upsert_fallback_counterexample :
    (failureWrites true "connection reset by peer").any isUpsert = false := by decide

/-- C9 (amended).  When a job's pipeline fails unrecoverably, the record
is marked failed with the constant sanitized message — the internal
exception detail appears only in the logs, never in the write — and the
handler issues no other write: in particular, if the status-update write
itself fails, the failure is only logged and no fallback upsert-style
write is issued, so the failure signal can be lost. -/
theorem failure_write_behavior (statusWriteThrows : Bool) (excDetail : String) :
    failureWrites statusWriteThrows excDetail =
      [DbWrite.update "failed" sanitizedFailureMessage] ∧
    (failureWrites statusWriteThrows excDetail).any isUpsert = false ∧
    (∀ b d, failureWrites statusWriteThrows excDetail = failureWrites b d) ∧
    failureLogs statusWriteThrows excDetail =
      ("Job failed: " ++ excDetail) ::
        (if statusWriteThrows then ["Failed to update episode status to failed"]
         else []) :=
  ⟨rfl, rfl, fun _ _ => rfl, rfl⟩

/-! ## C7: input-shape errors -/

/-- C7.  A blank (whitespace-only) input fails with the empty-input
error before any external call; zero parsed turns after cleaning fail
with the no-dialogue error after the three generation calls; both errors
map to non-retryable Python exception classes, so neither triggers a
pipeline-level retry. -/
theorem pipeline_input_errors (text : List Char) (oracle : GenOracle)
    (cb : String → Except Unit Unit) :
    (stripL text = [] →
      runPipeline text oracle cb = ⟨Except.error PipelineError.emptyInput, [], [], []⟩) ∧
    (stripL text ≠ [] →
      parseTranscript (cleanTranscript
        (stitchHalves oracle.firstHalf oracle.secondHalf)) = [] →
      (runPipeline text oracle cb).result = Except.error PipelineError.noDialogue ∧
      (runPipeline text oracle cb).extCalls =
        ["claude:outline", "claude:first_half", "claude:second_half"]) ∧
    isRetryable (pyExcOf PipelineError.emptyInput) = false ∧
    isRetryable (pyExcOf PipelineError.noDialogue) = false ∧
    (∀ (R : Type) (o : Nat → Except PyExc R) (err : PipelineError),
      o 0 = Except.error (pyExcOf err) →
      pipelineRetry o = (Except.error (pyExcOf err), [], 1)) := by
  refine ⟨?_, ?_, rfl, rfl, ?_⟩
  · intro h
    unfold runPipeline
    rw [if_pos h]
  · intro h hparse
    refine ⟨?_, ?_⟩ <;> simp [runPipeline, h, hparse]
  · intro R o err h
    unfold pipelineRetry PIPELINE_MAX_RETRIES
    rw [retryAux_two, h]
    have hn : isRetryable (pyExcOf err) = false := by cases err <;> rfl
    simp [hn]

set_option maxRecDepth 100000 in
/-- Witness for C7: a whitespace-only document fails with the
empty-input error and no calls; an oracle generating no speaker tags
fails with the no-dialogue error. -/
theorem pipeline_input_errors_witness :
    runPipeline blankInput junkOracle (fun _ => Except.ok ()) =
      ⟨Except.error PipelineError.emptyInput, [], [], []⟩ ∧
    (runPipeline "text".toList junkOracle (fun _ => Except.ok ())).result =
      Except.error PipelineError.noDialogue :=
  ⟨(pipeline_input_errors blankInput junkOracle _).1 (by decide),
   ((pipeline_input_errors "text".toList junkOracle _).2.1 (by decide) (by decide)).1⟩

/-! ## C10: progress-callback isolation -/

/-- C10.  An exception raised by the progress callback is swallowed in
its own error boundary: for every callback, the pipeline's result, its
stage sequence and its external calls are identical to those of a run
with a callback that never raises. -/
theorem progress_callback_isolated (text : List Char) (oracle : GenOracle)
    (cb : String → Except Unit Unit) :
    (runPipeline text oracle cb).result =
      (runPipeline text oracle (fun _ => Except.ok ())).result ∧
    (runPipeline text oracle cb).stages =
      (runPipeline text oracle (fun _ => Except.ok ())).stages ∧
    (runPipeline text oracle cb).extCalls =
      (runPipeline text oracle (fun _ => Except.ok ())).extCalls := by
  by_cases h1 : stripL text = []
  · simp [runPipeline, h1]
  · by_cases h2 : parseTranscript (cleanTranscript
      (stitchHalves oracle.firstHalf oracle.secondHalf)) = [] <;>
      simp [runPipeline, h1, h2]
